import Mathlib

/-
Verification of the SMT-API repository (src/server.js): a shallow embedding
of the demons table, the query-parameter-to-SQL translation of the list
endpoint (GET /api/v1/demons), the create endpoint (POST /api/v1/demons)
and the seed-data image normalization, together with theorems settling the
specification claims about them.
-/

namespace SMT

/-- Direction token of a sort parameter, the second capture group of the
pattern on server.js line 140. -/
inductive SortDir where
| asc
| desc
  deriving Repr, DecidableEq

/-- A stored row of the demons table (server.js initDb, lines 37-44):
id INTEGER PRIMARY KEY AUTOINCREMENT, name TEXT NOT NULL UNIQUE, and
nullable description, race, alignment, imageUrl TEXT columns. A NULL
column is modelled as Option.none; id is the rowid alias. -/
structure Demon where
  id : Nat
  name : String
  description : Option String
  race : Option String
  alignment : Option String
  imageUrl : Option String
  deriving Repr, DecidableEq

/-- The query-string parameters read by the list handler on server.js
line 112: filter, the sort token, the page number and the page size.
An absent parameter is Option.none; present parameters arrive as strings. -/
structure ListQuery where
  filter : Option String
  sort : Option String
  page : Option String
  pageSize : Option String
  deriving Repr, DecidableEq

/-- Column allowlist for the filter parameter (server.js line 125). -/
def allowedFilters : List String := ["id", "name", "race", "alignment"]

/-- Column allowlist for the sort parameter (server.js line 143). -/
def allowedSorts : List String := ["id", "name", "race", "alignment", "imageUrl"]

/-- Alignment enum of demonSchema (server.js line 90). -/
def allowedAlignments : List String :=
  ["Law", "Neutral", "Chaos", "unknown", "Light-Law", "Dark-Chaos", "Neutral-Neutral"]

/-- JS String.prototype.split with separator colon, on the character list of
the string: every colon starts a new part, so a string with n colons yields
n+1 parts (server.js line 121). -/
def splitColon : List Char → List (List Char)
  | [] => [[]]
  | ':' :: rest => [] :: splitColon rest
  | c :: rest =>
    match splitColon rest with
    | [] => [[c]]
    | p :: ps => (c :: p) :: ps

/-- Filter parsing of server.js lines 119-131: split the filter string on
colons, require exactly two parts, and require the field part to be in
allowedFilters. Returns the field/value pair that will become a WHERE
clause, or none when the filter is silently ignored. -/
def parseFilter (f : String) : Option (String × String) :=
  match splitColon f.toList with
  | [k, v] =>
    if allowedFilters.contains (String.mk k) then some (String.mk k, String.mk v)
    else none
  | _ => none

/-- A whole-string integer literal, optionally signed, with surrounding
whitespace allowed: the texts that SQLite numeric affinity converts to an
integer when a TEXT value is compared against the INTEGER id column.
Fractional and exponent literals are not modelled (no claim involves them). -/
def sqliteIntOfText (s : String) : Option Int :=
  let cs := ((s.toList.dropWhile fun c => c = ' ').reverse.dropWhile fun c => c = ' ').reverse
  match cs with
  | '-' :: ds =>
    if ds ≠ [] ∧ ds.all Char.isDigit
    then some (-(ds.foldl (fun n c => n * 10 + (c.toNat - 48)) 0 : Nat))
    else none
  | '+' :: ds =>
    if ds ≠ [] ∧ ds.all Char.isDigit
    then some ((ds.foldl (fun n c => n * 10 + (c.toNat - 48)) 0 : Nat))
    else none
  | ds =>
    if ds ≠ [] ∧ ds.all Char.isDigit
    then some ((ds.foldl (fun n c => n * 10 + (c.toNat - 48)) 0 : Nat))
    else none

/-- Semantics of the parameterized WHERE clause col = ? built on server.js
line 127, for one row: TEXT columns compare by exact (binary, hence
case-sensitive) equality, a NULL column never matches, and the INTEGER id
column matches when the bound text converts to its value under numeric
affinity. -/
def demonMatches (key value : String) (d : Demon) : Bool :=
  if key = "id" then
    match sqliteIntOfText value with
    | some n => (d.id : Int) == n
    | none => false
  else if key = "name" then d.name == value
  else if key = "race" then d.race == some value
  else if key = "alignment" then d.alignment == some value
  else false

/-- The WHERE stage of the list query (server.js lines 118-135): an absent
or ignored filter keeps every row, a parsed filter keeps the matching rows. -/
def filterStage (f : Option String) (rows : List Demon) : List Demon :=
  match f with
  | none => rows
  | some s =>
    match parseFilter s with
    | none => rows
    | some (k, v) => rows.filter (demonMatches k v)

/-- ASCII alphanumeric character class of the sort pattern on server.js
line 140. -/
def isAlnumChar (c : Char) : Bool := c.isAlpha || c.isDigit

/-- The sort-token pattern of server.js line 140: one or more alphanumeric
characters, an underscore, then asc or desc case-insensitively, matching
the whole string. Since the field part is alphanumeric, the underscore of a
successful match is necessarily the first underscore of the string. -/
def parseSort (s : String) : Option (String × SortDir) :=
  let cs := s.toList
  let f := cs.takeWhile isAlnumChar
  let rest := cs.drop f.length
  if f.isEmpty then none
  else if rest.map Char.toLower = "_asc".toList then some (String.mk f, SortDir.asc)
  else if rest.map Char.toLower = "_desc".toList then some (String.mk f, SortDir.desc)
  else none

/-- The ORDER BY clause the list handler emits: an explicit column and
direction, or no ORDER BY clause at all (a plain table scan, which for this
rowid table returns rows in storage order, i.e. ascending id). -/
inductive OrderSpec where
| scan
| byColumn (col : String) (dir : SortDir)
  deriving Repr, DecidableEq

/-- Sorting decision of server.js lines 137-150: an absent sort parameter
emits ORDER BY id ASC; a present one emits ORDER BY col dir only when the
pattern matches and the column is allowlisted, and otherwise emits no
ORDER BY clause at all. -/
def orderOf (sortParam : Option String) : OrderSpec :=
  match sortParam with
  | none => OrderSpec.byColumn "id" SortDir.asc
  | some s =>
    match parseSort s with
    | some (col, dir) =>
      if allowedSorts.contains col then OrderSpec.byColumn col dir else OrderSpec.scan
    | none => OrderSpec.scan

/-- Lexicographic order on character lists by code point, the order SQLite's
BINARY collation gives TEXT values (UTF-8 byte order coincides with code
point order). -/
def charListLe : List Char → List Char → Bool
  | [], _ => true
  | _ :: _, [] => false
  | a :: as, b :: bs =>
    if a.toNat < b.toNat then true
    else if b.toNat < a.toNat then false
    else charListLe as bs

/-- BINARY-collation comparison of two TEXT values. -/
def strLe (a b : String) : Bool := charListLe a.toList b.toList

/-- SQLite ordering of a nullable TEXT column: NULL sorts before every
text value, text values compare under BINARY collation. -/
def optLe : Option String → Option String → Bool
  | none, _ => true
  | some _, none => false
  | some a, some b => strLe a b

/-- The column a sort key reads from a row, for the TEXT columns. -/
def textCol (col : String) (d : Demon) : Option String :=
  match col with
  | "name" => some d.name
  | "race" => d.race
  | "alignment" => d.alignment
  | "imageUrl" => d.imageUrl
  | _ => none

/-- Ascending ORDER BY comparison for one column: the INTEGER id column
compares numerically, TEXT columns compare NULLs-first under BINARY
collation. -/
def cmpLE (col : String) (a b : Demon) : Bool :=
  if col = "id" then decide (a.id ≤ b.id)
  else optLe (textCol col a) (textCol col b)

/-- ORDER BY comparison with direction: DESC reverses the ascending order. -/
def sortLE (col : String) (dir : SortDir) (a b : Demon) : Bool :=
  match dir with
  | SortDir.asc => cmpLE col a b
  | SortDir.desc => cmpLE col b a

/-- The ORDER BY comparison as a decidable relation. -/
def sortRel (col : String) (dir : SortDir) : Demon → Demon → Prop :=
  fun a b => sortLE col dir a b = true

instance (col : String) (dir : SortDir) : DecidableRel (sortRel col dir) :=
  fun a b => (inferInstance : Decidable (sortLE col dir a b = true))

/-- The ORDER BY stage of the list query: a scan returns the rows in
storage order, an explicit ORDER BY returns them sorted under the column
comparison (modelled as an insertion sort; SQLite guarantees only
sortedness, which is all the claims state). -/
def sortStage (sortParam : Option String) (rows : List Demon) : List Demon :=
  match orderOf sortParam with
  | OrderSpec.scan => rows
  | OrderSpec.byColumn col dir => List.insertionSort (sortRel col dir) rows

/-- JS parseInt in base 10: skip leading whitespace, read an optional sign
and then a maximal run of decimal digits; NaN (modelled as none) when no
digit is read. Hexadecimal 0x prefixes are not modelled (no claim involves
them). -/
def parseIntJs (s : String) : Option Int :=
  let digits : List Char → Option Nat := fun cs =>
    let ds := cs.takeWhile Char.isDigit
    if ds.isEmpty then none
    else some (ds.foldl (fun n c => n * 10 + (c.toNat - 48)) 0)
  let cs := s.toList.dropWhile fun c => c = ' ' || c = '\t' || c = '\n' || c = '\r'
  match cs with
  | '-' :: rest => (digits rest).map fun n => -(n : Int)
  | '+' :: rest => (digits rest).map fun n => (n : Int)
  | rest => (digits rest).map fun n => (n : Int)

/-- The page number before coercion: the destructuring default 1 when the
parameter is absent (server.js line 112), otherwise parseInt of the given
string (line 154); none is NaN. -/
def rawPage (page : Option String) : Option Int :=
  match page with
  | none => some 1
  | some s => parseIntJs s

/-- The limit before coercion: the destructuring default 10 when the
parameter is absent, otherwise parseInt of the given string
(server.js line 153); none is NaN. -/
def rawLimit (pageSize : Option String) : Option Int :=
  match pageSize with
  | none => some 10
  | some s => parseIntJs s

/-- The offset before coercion, (page - 1) * limit computed on the raw
parsed values (server.js line 154); NaN propagates through the arithmetic. -/
def rawOffset (page pageSize : Option String) : Option Int :=
  match rawPage page, rawLimit pageSize with
  | some p, some l => some ((p - 1) * l)
  | _, _ => none

/-- The LIMIT actually bound (server.js line 157): 10 when the raw limit is
NaN or below 1, the raw limit otherwise. -/
def safeLimit (pageSize : Option String) : Int :=
  match rawLimit pageSize with
  | none => 10
  | some l => if l < 1 then 10 else l

/-- The OFFSET actually bound (server.js line 158): 0 when the raw offset
is NaN or negative, the raw offset otherwise. -/
def safeOffset (page pageSize : Option String) : Int :=
  match rawOffset page pageSize with
  | none => 0
  | some o => if o < 0 then 0 else o

/-- The LIMIT/OFFSET stage of the list query (server.js lines 152-161):
skip safeOffset rows, return at most safeLimit rows. -/
def pageStage (page pageSize : Option String) (rows : List Demon) : List Demon :=
  ((rows.drop (safeOffset page pageSize).toNat).take (safeLimit pageSize).toNat)

/-- The list endpoint GET /api/v1/demons (server.js lines 111-176) as a
function of the table contents: filtering, then ordering, then pagination. -/
def runListQuery (table : List Demon) (q : ListQuery) : List Demon :=
  pageStage q.page q.pageSize (sortStage q.sort (filterStage q.filter table))

/-- The create request body after JSON parsing: each schema property is a
string when present (server.js lines 82-94, 180). -/
structure DemonBody where
  name : Option String
  description : Option String
  race : Option String
  alignment : Option String
  imageUrl : Option String
  deriving Repr, DecidableEq

/-- Fastify validation of demonSchema (server.js lines 82-94): name, race
and alignment are required, name is 1 to 100 characters, description at
most 500, race at most 50, alignment must be in the enum. The format uri
annotation on imageUrl is not enforced by the default validator and is not
modelled. -/
def validateBody (b : DemonBody) : Bool :=
  (match b.name with
   | some s => decide (1 ≤ s.length) && decide (s.length ≤ 100)
   | none => false)
  && (match b.description with
      | some s => decide (s.length ≤ 500)
      | none => true)
  && (match b.race with
      | some s => decide (s.length ≤ 50)
      | none => false)
  && (match b.alignment with
      | some s => allowedAlignments.contains s
      | none => false)

/-- The demons table together with the AUTOINCREMENT counter: nextId is the
next id to assign, strictly above every id ever assigned. Rows are kept in
storage (rowid, hence id) order, the order a plain table scan returns. -/
structure Store where
  rows : List Demon
  nextId : Nat
  deriving Repr, DecidableEq

/-- The freshly created database: empty table, ids start at 1. -/
def initialStore : Store := ⟨[], 1⟩

/-- The UNIQUE constraint check on name (binary, hence case-sensitive,
string equality). -/
def nameExists (st : Store) (n : String) : Bool :=
  st.rows.any fun d => d.name == n

/-- Outcome of the create endpoint: the HTTP status and payload sent by the
handler. -/
inductive CreateOutcome where
| created (status : Nat) (record : Demon)
| conflict (status : Nat) (error : String)
| invalid (status : Nat)
  deriving Repr, DecidableEq

/-- The create endpoint POST /api/v1/demons (server.js lines 179-208)
together with the schema validation Fastify runs before the handler: an
invalid body is rejected with 400 and the store untouched; a duplicate name
hits the UNIQUE constraint and is answered 409 with the store untouched;
otherwise the row is inserted with the next id and echoed back with 201. -/
def postDemon (st : Store) (b : DemonBody) : CreateOutcome × Store :=
  if validateBody b then
    match b.name with
    | some n =>
      if nameExists st n then (CreateOutcome.conflict 409 "Demon already exists", st)
      else
        let d : Demon :=
          { id := st.nextId, name := n, description := b.description,
            race := b.race, alignment := b.alignment, imageUrl := b.imageUrl }
        (CreateOutcome.created 201 d, ⟨st.rows ++ [d], st.nextId + 1⟩)
    | none => (CreateOutcome.invalid 400, st)
  else (CreateOutcome.invalid 400, st)

/-- The store invariant maintained by every insert: nextId is positive and
above every stored id, and rows sit in strictly ascending id order (the
storage order of the rowid table). -/
def StoreInv (st : Store) : Prop :=
  0 < st.nextId ∧ (∀ d ∈ st.rows, d.id < st.nextId)
    ∧ List.Sorted (fun a b : Demon => a.id < b.id) st.rows

/-- JS truthiness fallback a || b for a possibly-absent string a: an absent
field and the empty string are both falsy (server.js line 66). -/
def jsOrElse (v : Option String) (dflt : String) : String :=
  match v with
  | some s => if s = "" then dflt else s
  | none => dflt

/-- Seed image normalization of server.js line 66: the stored imageUrl is
image_source_url falling back to img falling back to the empty string,
under JS truthiness. -/
def seedImage (imageSourceUrl img : Option String) : String :=
  jsOrElse imageSourceUrl (jsOrElse img "")

/-- The charListLe comparison is total. -/
theorem charListLe_total : ∀ as bs, (charListLe as bs || charListLe bs as) = true
  | [], bs => by cases bs <;> simp [charListLe]
  | a :: as, [] => by simp [charListLe]
  | a :: as, b :: bs => by
    by_cases h1 : a.toNat < b.toNat
    · simp [charListLe, h1]
    · by_cases h2 : b.toNat < a.toNat
      · simp [charListLe, h1, h2]
      · simp [charListLe, h1, h2, charListLe_total as bs]

/-- The charListLe comparison is transitive. -/
theorem charListLe_trans : ∀ as bs cs, charListLe as bs = true → charListLe bs cs = true →
    charListLe as cs = true
  | [], _, _, _, _ => rfl
  | _ :: _, [], _, h1, _ => by simp [charListLe] at h1
  | _ :: _, _ :: _, [], _, h2 => by simp [charListLe] at h2
  | a :: as, b :: bs, c :: cs, h1, h2 => by
    simp only [charListLe] at h1 h2 ⊢
    by_cases hab : a.toNat < b.toNat
    · rw [if_pos hab] at h1
      by_cases hbc : b.toNat < c.toNat
      · rw [if_pos (Nat.lt_trans hab hbc)]
      · rw [if_neg hbc] at h2
        by_cases hcb : c.toNat < b.toNat
        · rw [if_pos hcb] at h2; exact absurd h2 (by simp)
        · rw [if_neg hcb] at h2
          have hac : a.toNat < c.toNat := by omega
          rw [if_pos hac]
    · rw [if_neg hab] at h1
      by_cases hba : b.toNat < a.toNat
      · rw [if_pos hba] at h1; exact absurd h1 (by simp)
      · rw [if_neg hba] at h1
        by_cases hbc : b.toNat < c.toNat
        · have hac : a.toNat < c.toNat := by omega
          rw [if_pos hac]
        · rw [if_neg hbc] at h2
          by_cases hcb : c.toNat < b.toNat
          · rw [if_pos hcb] at h2; exact absurd h2 (by simp)
          · rw [if_neg hcb] at h2
            have h3 : ¬ a.toNat < c.toNat := by omega
            have h4 : ¬ c.toNat < a.toNat := by omega
            rw [if_neg h3, if_neg h4]
            exact charListLe_trans as bs cs h1 h2

/-- The nullable-column comparison is total. -/
theorem optLe_total (x y : Option String) : (optLe x y || optLe y x) = true := by
  cases x <;> cases y
  · rfl
  · rfl
  · rfl
  · exact charListLe_total _ _

/-- The nullable-column comparison is transitive. -/
theorem optLe_trans (x y z : Option String) (h1 : optLe x y = true) (h2 : optLe y z = true) :
    optLe x z = true := by
  cases x <;> cases z
  · rfl
  · rfl
  · cases y
    · simp [optLe] at h1
    · simp [optLe] at h2
  · cases y
    · simp [optLe] at h1
    · exact charListLe_trans _ _ _ h1 h2

/-- The per-column ORDER BY comparison is total. -/
theorem cmpLE_total (col : String) (a b : Demon) : (cmpLE col a b || cmpLE col b a) = true := by
  by_cases h : col = "id"
  · rcases Nat.le_total a.id b.id with hle | hle <;> simp [cmpLE, h, hle]
  · simp only [cmpLE, if_neg h]
    exact optLe_total _ _

/-- The per-column ORDER BY comparison is transitive. -/
theorem cmpLE_trans (col : String) (a b c : Demon)
    (h1 : cmpLE col a b = true) (h2 : cmpLE col b c = true) : cmpLE col a c = true := by
  by_cases h : col = "id"
  · simp only [cmpLE, if_pos h, decide_eq_true_eq] at h1 h2 ⊢
    exact Nat.le_trans h1 h2
  · simp only [cmpLE, if_neg h] at h1 h2 ⊢
    exact optLe_trans _ _ _ h1 h2

/-- The directed ORDER BY comparison is total. -/
theorem sortLE_total (col : String) (dir : SortDir) (a b : Demon) :
    (sortLE col dir a b || sortLE col dir b a) = true := by
  cases dir
  · exact cmpLE_total col a b
  · show (cmpLE col b a || cmpLE col a b) = true
    rw [Bool.or_comm]
    exact cmpLE_total col a b

/-- The directed ORDER BY comparison is transitive. -/
theorem sortLE_trans (col : String) (dir : SortDir) (a b c : Demon)
    (h1 : sortLE col dir a b = true) (h2 : sortLE col dir b c = true) :
    sortLE col dir a c = true := by
  cases dir
  · exact cmpLE_trans col a b c h1 h2
  · exact cmpLE_trans col c b a h2 h1

instance (col : String) (dir : SortDir) : IsTotal Demon (sortRel col dir) :=
  ⟨fun a b => Bool.or_eq_true_iff.mp (sortLE_total col dir a b)⟩

instance (col : String) (dir : SortDir) : IsTrans Demon (sortRel col dir) :=
  ⟨fun a b c h1 h2 => sortLE_trans col dir a b c h1 h2⟩

/-- The WHERE stage only removes rows. -/
theorem filterStage_sublist (f : Option String) (l : List Demon) :
    (filterStage f l).Sublist l := by
  rcases f with _ | s
  · exact List.Sublist.refl l
  · rcases h : parseFilter s with _ | ⟨k, v⟩ <;> simp only [filterStage, h]
    · exact List.Sublist.refl l
    · exact List.filter_sublist l

/-- Rows of the ordered output come from the input. -/
theorem mem_of_mem_sortStage {d : Demon} (s : Option String) (l : List Demon)
    (h : d ∈ sortStage s l) : d ∈ l := by
  rcases ho : orderOf s with _ | ⟨col, dir⟩ <;> simp only [sortStage, ho] at h
  · exact h
  · exact (List.perm_insertionSort (sortRel col dir) l).mem_iff.mp h

/-- The LIMIT/OFFSET stage only removes rows. -/
theorem pageStage_sublist (p ps : Option String) (l : List Demon) :
    (pageStage p ps l).Sublist l :=
  (List.take_sublist _ _).trans (List.drop_sublist _ _)

/-- The invariant holds in the freshly created database. -/
theorem storeInv_initial : StoreInv initialStore :=
  ⟨Nat.one_pos, fun d hd => absurd hd (List.not_mem_nil d), List.sorted_nil⟩

/-- Every create request preserves the store invariant: a rejected or
conflicting request leaves the store untouched, and a successful insert
appends a row carrying the next id and bumps the counter. -/
theorem storeInv_postDemon (st : Store) (b : DemonBody) (h : StoreInv st) :
    StoreInv (postDemon st b).snd := by
  obtain ⟨hpos, hlt, hsorted⟩ := h
  by_cases hv : validateBody b = true
  · rcases hn : b.name with _ | n
    · simpa [postDemon, hv, hn] using ⟨hpos, hlt, hsorted⟩
    · by_cases hex : nameExists st n = true
      · simpa [postDemon, hv, hn, hex] using ⟨hpos, hlt, hsorted⟩
      · have hex' : nameExists st n = false := by
          simpa using hex
        have hpost : postDemon st b =
            (CreateOutcome.created 201
              ⟨st.nextId, n, b.description, b.race, b.alignment, b.imageUrl⟩,
             ⟨st.rows ++ [⟨st.nextId, n, b.description, b.race, b.alignment, b.imageUrl⟩],
              st.nextId + 1⟩) := by
          simp [postDemon, hv, hn, hex']
        rw [hpost]
        refine ⟨Nat.succ_pos _, ?_, ?_⟩
        · intro d hd
          rcases List.mem_append.mp hd with hd | hd
          · exact Nat.lt_succ_of_lt (hlt d hd)
          · rw [List.mem_singleton.mp hd]
            exact Nat.lt_succ_self _
        · rw [List.Sorted, List.pairwise_append]
          refine ⟨hsorted, List.pairwise_singleton _ _, ?_⟩
          intro a ha e he
          rw [List.mem_singleton.mp he]
          exact hlt a ha
  · simpa [postDemon, hv] using ⟨hpos, hlt, hsorted⟩

/-- A present sort parameter that fails the pattern or the allowlist emits
no ORDER BY clause. -/
theorem orderOf_invalid (s : String)
    (hs : ∀ c d, parseSort s = some (c, d) → allowedSorts.contains c = false) :
    orderOf (some s) = OrderSpec.scan := by
  rcases h : parseSort s with _ | ⟨c, d⟩ <;> simp only [orderOf, h]
  rw [hs c d h]
  rfl

/-- C1: for every list request whose sort parameter is present but either
fails the field-underscore-direction pattern or names a field outside the
sort allowlist, the returned records are in ascending order of id. The
handler emits no ORDER BY clause in that case, so the rows come back in the
storage order of the rowid table, which the store invariant keeps strictly
ascending in id; filtering and pagination only remove rows. -/
theorem c1_invalid_sort_yields_ascending_id (table : List Demon) (s : String)
    (filt page pageSize : Option String)
    (hs : ∀ c d, parseSort s = some (c, d) → allowedSorts.contains c = false)
    (htab : List.Sorted (fun a b : Demon => a.id < b.id) table) :
    List.Sorted (fun a b : Demon => a.id < b.id)
      (runListQuery table ⟨filt, some s, page, pageSize⟩) := by
  have hrun : runListQuery table ⟨filt, some s, page, pageSize⟩ =
      pageStage page pageSize (filterStage filt table) := by
    unfold runListQuery sortStage
    rw [orderOf_invalid s hs]
  rw [hrun]
  exact List.Pairwise.sublist
    ((pageStage_sublist page pageSize _).trans (filterStage_sublist filt table)) htab

/-- Witness for C1 at the invalid sort token name_sideways on a concrete
two-row table. -/
theorem c1_witness :
    (∀ c d, parseSort "name_sideways" = some (c, d) → allowedSorts.contains c = false)
    ∧ List.Sorted (fun a b : Demon => a.id < b.id)
        (runListQuery
          ([⟨1, "Pixie", none, none, none, none⟩, ⟨2, "Angel", none, none, none, none⟩] :
            List Demon)
          ⟨none, some "name_sideways", none, none⟩) := by
  have hps : parseSort "name_sideways" = none := by decide
  have hs : ∀ c d, parseSort "name_sideways" = some (c, d) →
      allowedSorts.contains c = false := by
    intro c d h
    rw [hps] at h
    exact Option.noConfusion h
  exact ⟨hs, c1_invalid_sort_yields_ascending_id _ "name_sideways" none none none hs
    (by decide)⟩

/-- C2 (amended): the filter parameter is split on every colon; only when
the split yields exactly two parts and the field part is allowlisted does a
WHERE clause appear, and otherwise the filter is silently ignored and the
result set equals that of the same request with no filter at all. In
particular a filter whose value contains a colon splits into three or more
parts and is ignored entirely. -/
theorem c2_invalid_filter_ignored (table : List Demon) (f : String)
    (sortP page pageSize : Option String)
    (hp : (splitColon f.toList).length ≠ 2
      ∨ ∀ k v, splitColon f.toList = [k, v] →
          allowedFilters.contains (String.mk k) = false) :
    runListQuery table ⟨some f, sortP, page, pageSize⟩ =
      runListQuery table ⟨none, sortP, page, pageSize⟩ := by
  have hpf : parseFilter f = none := by
    unfold parseFilter
    rcases hsp : splitColon f.toList with _ | ⟨k, tl⟩
    · rfl
    · rcases tl with _ | ⟨v, tl2⟩
      · rfl
      · rcases tl2 with _ | ⟨w, ws⟩
        · rcases hp with hlen | hallow
          · exact absurd (by rw [hsp]; rfl) hlen
          · show (if allowedFilters.contains (String.mk k) = true
                then some (String.mk k, String.mk v) else none) = none
            rw [hallow k v hsp]
            simp
        · rfl
  unfold runListQuery
  simp only [filterStage, hpf]
/-- Counterexample to C2 as stated: on a table holding a demon literally
named a:b, the filter name:a:b returns the whole table (the filter is
ignored because the split yields three parts), not the records whose name
equals a:b. -/
theorem c2_counterexample :
    runListQuery
        ([⟨1, "a:b", none, none, none, none⟩, ⟨2, "Pixie", none, none, none, none⟩] :
          List Demon)
        ⟨some "name:a:b", none, none, none⟩ =
      runListQuery
        ([⟨1, "a:b", none, none, none, none⟩, ⟨2, "Pixie", none, none, none, none⟩] :
          List Demon)
        ⟨none, none, none, none⟩
    ∧ ¬ (runListQuery
          ([⟨1, "a:b", none, none, none, none⟩, ⟨2, "Pixie", none, none, none, none⟩] :
            List Demon)
          ⟨some "name:a:b", none, none, none⟩ =
        List.filter (fun d => d.name == "a:b")
          ([⟨1, "a:b", none, none, none, none⟩, ⟨2, "Pixie", none, none, none, none⟩] :
            List Demon)) := by
  refine ⟨?_, ?_⟩ <;> decide

/-- Witness for C2 at the filter name:a:b, whose value contains a colon:
the split yields three parts, so the request returns the same records as
the request with no filter. -/
theorem c2_witness :
    (splitColon ("name:a:b").toList).length ≠ 2
    ∧ runListQuery
        ([⟨1, "Angel", none, none, none, none⟩] : List Demon)
        ⟨some "name:a:b", none, none, none⟩ =
      runListQuery
        ([⟨1, "Angel", none, none, none, none⟩] : List Demon)
        ⟨none, none, none, none⟩ :=
  ⟨by decide, c2_invalid_filter_ignored _ "name:a:b" none none none (Or.inl (by decide))⟩

/-- C3 (amended): pagination selects a window of the filtered and sorted
result set: page 2 with page size 5 yields the records at 0-indexed offset
5 with limit 5; a non-numeric page always behaves as page 1; and page 0
behaves as page 1 provided the parsed page size is not negative (when the
page size parses to a negative number, page 0 instead produces the positive
offset (0 - 1) * pageSize). -/
theorem c3_pagination_window (table : List Demon) (filt sortP pageSize : Option String)
    (p : String) :
    runListQuery table ⟨filt, sortP, some "2", some "5"⟩ =
      ((sortStage sortP (filterStage filt table)).drop 5).take 5
    ∧ (parseIntJs p = none →
        runListQuery table ⟨filt, sortP, some p, pageSize⟩ =
          runListQuery table ⟨filt, sortP, some "1", pageSize⟩)
    ∧ ((∀ l, rawLimit pageSize = some l → 0 ≤ l) →
        runListQuery table ⟨filt, sortP, some "0", pageSize⟩ =
          runListQuery table ⟨filt, sortP, some "1", pageSize⟩) := by
  have h1 : parseIntJs "1" = some 1 := by decide
  refine ⟨?_, ?_, ?_⟩
  · have hoff : safeOffset (some "2") (some "5") = 5 := by decide
    have hlim : safeLimit (some "5") = 5 := by decide
    unfold runListQuery pageStage
    rw [hoff, hlim]
    rfl
  · intro hp
    have hoff : safeOffset (some p) pageSize = safeOffset (some "1") pageSize := by
      rcases hL : rawLimit pageSize with _ | l <;>
        simp [safeOffset, rawOffset, rawPage, hp, hL, h1]
    unfold runListQuery pageStage
    rw [hoff]
  · intro hq
    have h0 : parseIntJs "0" = some 0 := by decide
    have hoff : safeOffset (some "0") pageSize = safeOffset (some "1") pageSize := by
      rcases hL : rawLimit pageSize with _ | l
      · simp [safeOffset, rawOffset, rawPage, hL, h0, h1]
      · have hl := hq l hL
        simp only [safeOffset, rawOffset, rawPage, hL, h0, h1]
        have e0 : ((0 : Int) - 1) * l = -l := by ring
        have e1 : ((1 : Int) - 1) * l = 0 := by ring
        rw [e0, e1]
        by_cases hneg : -l < 0
        · simp [hneg]
        · have : l = 0 := by omega
          simp [this]
    unfold runListQuery pageStage
    rw [hoff]

/-- Counterexample to C3 as stated: with page 0 and the invalid page size
-1, the raw offset is (0 - 1) * (-1) = 1, so the request skips the first
record instead of behaving as page 1. -/
theorem c3_counterexample :
    ¬ (runListQuery
          ([⟨1, "Angel", none, none, none, none⟩, ⟨2, "Pixie", none, none, none, none⟩] :
            List Demon)
          ⟨none, none, some "0", some "-1"⟩ =
        runListQuery
          ([⟨1, "Angel", none, none, none, none⟩, ⟨2, "Pixie", none, none, none, none⟩] :
            List Demon)
          ⟨none, none, some "1", some "-1"⟩) := by
  decide

/-- Witness for C3 on a concrete one-row table: the page-2-size-5 window,
the non-numeric page abc behaving as page 1 even at the invalid page size
-5, and page 0 behaving as page 1 at the valid page size 5. -/
theorem c3_witness :
    parseIntJs "abc" = none
    ∧ runListQuery ([⟨1, "Angel", none, none, none, none⟩] : List Demon)
          ⟨none, none, some "2", some "5"⟩ =
        ((sortStage none (filterStage none
          ([⟨1, "Angel", none, none, none, none⟩] : List Demon))).drop 5).take 5
    ∧ runListQuery ([⟨1, "Angel", none, none, none, none⟩] : List Demon)
          ⟨none, none, some "abc", some "-5"⟩ =
        runListQuery ([⟨1, "Angel", none, none, none, none⟩] : List Demon)
          ⟨none, none, some "1", some "-5"⟩
    ∧ runListQuery ([⟨1, "Angel", none, none, none, none⟩] : List Demon)
          ⟨none, none, some "0", some "5"⟩ =
        runListQuery ([⟨1, "Angel", none, none, none, none⟩] : List Demon)
          ⟨none, none, some "1", some "5"⟩ :=
  ⟨by decide,
    (c3_pagination_window ([⟨1, "Angel", none, none, none, none⟩] : List Demon)
      none none (some "-5") "abc").1,
    (c3_pagination_window ([⟨1, "Angel", none, none, none, none⟩] : List Demon)
      none none (some "-5") "abc").2.1 (by decide),
    (c3_pagination_window ([⟨1, "Angel", none, none, none, none⟩] : List Demon)
      none none (some "5") "abc").2.2
      (fun l hl => by
        rw [show rawLimit (some "5") = some 5 from by decide] at hl
        rw [← Option.some_inj.mp hl]
        decide)⟩

/-- C4: for every pair of schema-valid create requests with identical
(case-sensitively equal) name where the first succeeds, the second yields
the 409 conflict response, distinct from generic failures, the store is
unchanged by the failed insert, and the table retains exactly one row for
that name. -/
theorem c4_duplicate_name_conflict (st : Store) (b1 b2 : DemonBody) (n : String)
    (d : Demon) (h1 : b1.name = some n) (h2 : b2.name = some n)
    (hv2 : validateBody b2 = true)
    (hfst : (postDemon st b1).fst = CreateOutcome.created 201 d) :
    (postDemon (postDemon st b1).snd b2).fst =
        CreateOutcome.conflict 409 "Demon already exists"
    ∧ (postDemon (postDemon st b1).snd b2).snd = (postDemon st b1).snd
    ∧ List.length ((postDemon (postDemon st b1).snd b2).snd.rows.filter
          fun r => r.name == n) = 1 := by
  by_cases hv1 : validateBody b1 = true
  · by_cases hex : nameExists st n = true
    · simp [postDemon, hv1, h1, hex] at hfst
    · have hex' : nameExists st n = false := by simpa using hex
      have hpost : postDemon st b1 =
          (CreateOutcome.created 201
            ⟨st.nextId, n, b1.description, b1.race, b1.alignment, b1.imageUrl⟩,
           ⟨st.rows ++ [⟨st.nextId, n, b1.description, b1.race, b1.alignment, b1.imageUrl⟩],
            st.nextId + 1⟩) := by
        simp [postDemon, hv1, h1, hex']
      rw [hpost]
      have hex1 : nameExists
          (⟨st.rows ++ [⟨st.nextId, n, b1.description, b1.race, b1.alignment, b1.imageUrl⟩],
            st.nextId + 1⟩ : Store) n = true := by
        simp [nameExists]
      have hfilter : st.rows.filter (fun r => r.name == n) = [] := by
        rw [List.filter_eq_nil_iff]
        intro r hr
        have := (List.any_eq_false.mp hex') r hr
        simpa using this
      refine ⟨?_, ?_, ?_⟩
      · simp [postDemon, hv2, h2, hex1]
      · simp [postDemon, hv2, h2, hex1]
      · simp [postDemon, hv2, h2, hex1, List.filter_append, hfilter]
  · simp [postDemon, hv1] at hfst

/-- Witness for C4: creating Pixie twice in the empty store, the second
create conflicts with 409 and leaves exactly the one Pixie row. -/
theorem c4_witness :
    ((⟨some "Pixie", none, some "Fata", some "Neutral", none⟩ : DemonBody).name =
        some "Pixie")
    ∧ validateBody (⟨some "Pixie", none, some "Fata", some "Neutral", none⟩ : DemonBody) =
        true
    ∧ (postDemon initialStore
        (⟨some "Pixie", none, some "Fata", some "Neutral", none⟩ : DemonBody)).fst =
        CreateOutcome.created 201 (⟨1, "Pixie", none, some "Fata", some "Neutral", none⟩)
    ∧ ((postDemon (postDemon initialStore
          (⟨some "Pixie", none, some "Fata", some "Neutral", none⟩ : DemonBody)).snd
          (⟨some "Pixie", none, some "Fata", some "Neutral", none⟩ : DemonBody)).fst =
          CreateOutcome.conflict 409 "Demon already exists"
      ∧ (postDemon (postDemon initialStore
            (⟨some "Pixie", none, some "Fata", some "Neutral", none⟩ : DemonBody)).snd
            (⟨some "Pixie", none, some "Fata", some "Neutral", none⟩ : DemonBody)).snd =
          (postDemon initialStore
            (⟨some "Pixie", none, some "Fata", some "Neutral", none⟩ : DemonBody)).snd
      ∧ List.length ((postDemon (postDemon initialStore
            (⟨some "Pixie", none, some "Fata", some "Neutral", none⟩ : DemonBody)).snd
            (⟨some "Pixie", none, some "Fata", some "Neutral", none⟩ : DemonBody)).snd.rows.filter
              fun r => r.name == "Pixie") = 1) :=
  ⟨rfl, by decide, by decide,
    c4_duplicate_name_conflict initialStore _ _ "Pixie"
      (⟨1, "Pixie", none, some "Fata", some "Neutral", none⟩) rfl rfl (by decide) (by decide)⟩

/-- C5: every schema-valid create whose name is not already present
succeeds with 201, returns the stored record including its assigned id,
appends exactly that record to the table, and under the store invariant the
assigned id is a positive integer strictly greater than every previously
assigned id. -/
theorem c5_create_returns_fresh_increasing_id (st : Store) (b : DemonBody) (n : String)
    (hinv : StoreInv st) (hn : b.name = some n) (hv : validateBody b = true)
    (hfresh : nameExists st n = false) :
    ∃ d : Demon,
      postDemon st b = (CreateOutcome.created 201 d, ⟨st.rows ++ [d], st.nextId + 1⟩)
      ∧ d.name = n ∧ 0 < d.id ∧ ∀ e ∈ st.rows, e.id < d.id := by
  refine ⟨⟨st.nextId, n, b.description, b.race, b.alignment, b.imageUrl⟩, ?_, rfl,
    hinv.1, fun e he => hinv.2.1 e he⟩
  simp [postDemon, hv, hn, hfresh]

/-- Witness for C5: creating Angel in the empty store assigns id 1. -/
theorem c5_witness :
    StoreInv initialStore
    ∧ ∃ d : Demon,
        postDemon initialStore
            (⟨some "Angel", none, some "Divine", some "Law", none⟩ : DemonBody) =
          (CreateOutcome.created 201 d, ⟨initialStore.rows ++ [d], initialStore.nextId + 1⟩)
        ∧ d.name = "Angel" ∧ 0 < d.id ∧ ∀ e ∈ initialStore.rows, e.id < d.id :=
  ⟨storeInv_initial,
    c5_create_returns_fresh_increasing_id initialStore _ "Angel" storeInv_initial rfl
      (by decide) (by decide)⟩

/-- C6: every create request whose body is missing the required alignment
field, or whose alignment lies outside the enumerated set, is rejected with
the 400 validation response and the store is unchanged (the insert never
reaches the store). -/
theorem c6_bad_alignment_rejected (st : Store) (b : DemonBody)
    (h : b.alignment = none
      ∨ ∃ a, b.alignment = some a ∧ allowedAlignments.contains a = false) :
    postDemon st b = (CreateOutcome.invalid 400, st) := by
  have hval : validateBody b = false := by
    rcases h with h | ⟨a, ha, hc⟩
    · simp [validateBody, h]
    · have hc' : a ∉ allowedAlignments := by simpa using hc
      simp [validateBody, ha, hc']
  simp [postDemon, hval]

/-- Witness for C6: a body whose alignment Sideways is outside the enum is
rejected with 400 and the empty store stays empty. -/
theorem c6_witness :
    ((⟨some "Pixie", none, some "Fata", some "Sideways", none⟩ : DemonBody).alignment =
        some "Sideways" ∧ allowedAlignments.contains "Sideways" = false)
    ∧ postDemon initialStore
        (⟨some "Pixie", none, some "Fata", some "Sideways", none⟩ : DemonBody) =
      (CreateOutcome.invalid 400, initialStore) :=
  ⟨⟨rfl, by decide⟩,
    c6_bad_alignment_rejected initialStore _ (Or.inr ⟨"Sideways", rfl, by decide⟩)⟩

/-- C7: the filter race:Fata selects exactly the rows whose race column
equals the string Fata under exact, case-sensitive equality — rows with a
different or NULL race are excluded — and consequently every record the
request returns has race Fata. -/
theorem c7_filter_race_exact (table : List Demon) (sortP page pageSize : Option String) :
    filterStage (some "race:Fata") table =
        table.filter (fun d => d.race == some "Fata")
    ∧ ∀ d ∈ runListQuery table ⟨some "race:Fata", sortP, page, pageSize⟩,
        d.race = some "Fata" := by
  have hstage : filterStage (some "race:Fata") table =
      table.filter (fun d => d.race == some "Fata") := rfl
  refine ⟨hstage, ?_⟩
  intro d hd
  have hd1 : d ∈ sortStage sortP (filterStage (some "race:Fata") table) :=
    (pageStage_sublist page pageSize _).subset hd
  have hd2 : d ∈ filterStage (some "race:Fata") table :=
    mem_of_mem_sortStage sortP _ hd1
  rw [hstage] at hd2
  have := (List.mem_filter.mp hd2).2
  exact eq_of_beq this

/-- C8: a valid sort token over an allowlisted field orders the response:
name_asc yields non-decreasing name order under the BINARY text collation,
and id_desc yields non-increasing id order. -/
theorem c8_valid_sort_orders (table : List Demon) (filt page pageSize : Option String) :
    List.Sorted (fun a b : Demon => strLe a.name b.name = true)
      (runListQuery table ⟨filt, some "name_asc", page, pageSize⟩)
    ∧ List.Sorted (fun a b : Demon => b.id ≤ a.id)
      (runListQuery table ⟨filt, some "id_desc", page, pageSize⟩) := by
  constructor
  · have ho : orderOf (some "name_asc") = OrderSpec.byColumn "name" SortDir.asc := by
      decide
    have hrun : runListQuery table ⟨filt, some "name_asc", page, pageSize⟩ =
        pageStage page pageSize
          (List.insertionSort (sortRel "name" SortDir.asc) (filterStage filt table)) := by
      unfold runListQuery sortStage
      rw [ho]
    rw [hrun]
    refine List.Pairwise.sublist (pageStage_sublist page pageSize _) ?_
    have hs := List.sorted_insertionSort (sortRel "name" SortDir.asc)
      (filterStage filt table)
    exact hs.imp (fun h => h)
  · have ho : orderOf (some "id_desc") = OrderSpec.byColumn "id" SortDir.desc := by
      decide
    have hrun : runListQuery table ⟨filt, some "id_desc", page, pageSize⟩ =
        pageStage page pageSize
          (List.insertionSort (sortRel "id" SortDir.desc) (filterStage filt table)) := by
      unfold runListQuery sortStage
      rw [ho]
    rw [hrun]
    refine List.Pairwise.sublist (pageStage_sublist page pageSize _) ?_
    have hs := List.sorted_insertionSort (sortRel "id" SortDir.desc)
      (filterStage filt table)
    exact hs.imp (fun h => of_decide_eq_true h)

/-- C9 (amended): the stored imageUrl of a seed record is the value of
image_source_url when that field is present and non-empty; otherwise the
value of the legacy img field when present and non-empty; and the empty
string otherwise — the JS truthiness chain treats a present-but-empty
field like an absent one. -/
theorem c9_seed_image_truthiness (src img : Option String) :
    (∀ s, src = some s → s ≠ "" → seedImage src img = s)
    ∧ ((src = none ∨ src = some "") →
        ∀ t, img = some t → t ≠ "" → seedImage src img = t)
    ∧ ((src = none ∨ src = some "") → (img = none ∨ img = some "") →
        seedImage src img = "") := by
  refine ⟨?_, ?_, ?_⟩
  · intro s hs hne
    simp [seedImage, jsOrElse, hs, hne]
  · intro hsrc t ht hne
    rcases hsrc with hsrc | hsrc <;> simp [seedImage, jsOrElse, hsrc, ht, hne]
  · intro hsrc himg
    rcases hsrc with hsrc | hsrc <;> rcases himg with himg | himg <;>
      simp [seedImage, jsOrElse, hsrc, himg]

/-- Counterexample to C9 as stated: a seed record whose image_source_url
field is present but empty while img is pic.png stores pic.png, not the
present image_source_url value. -/
theorem c9_counterexample :
    seedImage (some "") (some "pic.png") = "pic.png"
    ∧ ("pic.png" : String) ≠ "" := by
  refine ⟨?_, ?_⟩ <;> decide

/-- Witness for C9: a non-empty image_source_url wins, an empty one falls
back to img, and two empty fields store the empty string. -/
theorem c9_witness :
    ((some "main.png" : Option String) = some "main.png" ∧ "main.png" ≠ ""
      ∧ seedImage (some "main.png") (some "old.png") = "main.png")
    ∧ ((some "" : Option String) = some "" ∧ (some "old.png" : Option String) = some "old.png"
      ∧ "old.png" ≠ "" ∧ seedImage (some "") (some "old.png") = "old.png")
    ∧ seedImage none none = "" :=
  ⟨⟨rfl, by decide,
      (c9_seed_image_truthiness (some "main.png") (some "old.png")).1 "main.png" rfl
        (by decide)⟩,
    ⟨rfl, rfl, by decide,
      (c9_seed_image_truthiness (some "") (some "old.png")).2.1 (Or.inr rfl) "old.png" rfl
        (by decide)⟩,
    (c9_seed_image_truthiness none none).2.2 (Or.inl rfl) (Or.inl rfl)⟩

/-- C10 (amended): whenever the pageSize parameter is non-numeric or parses
below 1, the bound LIMIT is coerced to 10; and whenever additionally the
page parameter is non-numeric or parses to at least 1 — in particular
whenever page is greater than 1 — the bound OFFSET is 0, so the request
returns the first 10 records of the filtered and sorted result set and the
page parameter is silently discarded. (When page and pageSize both parse
with page at most 0 and pageSize at most -1, the offset is instead the
positive product (page - 1) * pageSize.) -/
theorem c10_invalid_pageSize_discards_page (table : List Demon)
    (filt sortP page pageSize : Option String)
    (hps : ∀ l, rawLimit pageSize = some l → l < 1) :
    safeLimit pageSize = 10
    ∧ ((∀ p, rawPage page = some p → 1 ≤ p) →
        safeOffset page pageSize = 0
        ∧ runListQuery table ⟨filt, sortP, page, pageSize⟩ =
            (sortStage sortP (filterStage filt table)).take 10) := by
  have hlim : safeLimit pageSize = 10 := by
    rcases hL : rawLimit pageSize with _ | l
    · simp [safeLimit, hL]
    · simp [safeLimit, hL, hps l hL]
  refine ⟨hlim, fun hpg => ?_⟩
  have hoff : safeOffset page pageSize = 0 := by
    rcases hL : rawLimit pageSize with _ | l <;>
      rcases hP : rawPage page with _ | p <;>
        simp only [safeOffset, rawOffset, hL, hP]
    have hl := hps l hL
    have hp := hpg p hP
    have hprod : (p - 1) * l ≤ 0 :=
      mul_nonpos_of_nonneg_of_nonpos (by omega) (by omega)
    by_cases hneg : (p - 1) * l < 0
    · simp [hneg]
    · have : (p - 1) * l = 0 := by omega
      simp [this]
  refine ⟨hoff, ?_⟩
  unfold runListQuery pageStage
  rw [hlim, hoff]
  simp

/-- Counterexample to C10 as stated: with page 0 and pageSize -2 (below 1),
the bound OFFSET is (0 - 1) * (-2) = 2, not 0, and on a three-row table the
request skips the first two records instead of returning the first 10. -/
theorem c10_counterexample :
    rawLimit (some "-2") = some (-2)
    ∧ ((-2 : Int) < 1)
    ∧ safeOffset (some "0") (some "-2") = 2
    ∧ runListQuery
        ([⟨1, "Angel", none, none, none, none⟩, ⟨2, "Pixie", none, none, none, none⟩,
          ⟨3, "Jack Frost", none, none, none, none⟩] : List Demon)
        ⟨none, none, some "0", some "-2"⟩ =
      [⟨3, "Jack Frost", none, none, none, none⟩] := by
  refine ⟨?_, ?_, ?_, ?_⟩ <;> decide

/-- Witness for C10: pageSize 0 with page 3 binds LIMIT 10 and OFFSET 0 on
a concrete one-row table, and the LIMIT coercion to 10 also holds at
pageSize -2 with page 0, where the offset clause's page condition fails. -/
theorem c10_witness :
    (∀ l, rawLimit (some "0") = some l → l < 1)
    ∧ (∀ p, rawPage (some "3") = some p → 1 ≤ p)
    ∧ safeLimit (some "0") = 10
    ∧ safeOffset (some "3") (some "0") = 0
    ∧ runListQuery ([⟨1, "Angel", none, none, none, none⟩] : List Demon)
        ⟨none, none, some "3", some "0"⟩ =
      (sortStage none (filterStage none
        ([⟨1, "Angel", none, none, none, none⟩] : List Demon))).take 10
    ∧ (∀ l, rawLimit (some "-2") = some l → l < 1)
    ∧ safeLimit (some "-2") = 10 := by
  have hl : ∀ l, rawLimit (some "0") = some l → l < 1 := by
    intro l hl
    rw [show rawLimit (some "0") = some 0 from by decide] at hl
    rw [← Option.some_inj.mp hl]
    decide
  have hp : ∀ p, rawPage (some "3") = some p → 1 ≤ p := by
    intro p hp
    rw [show rawPage (some "3") = some 3 from by decide] at hp
    rw [← Option.some_inj.mp hp]
    decide
  have hl2 : ∀ l, rawLimit (some "-2") = some l → l < 1 := by
    intro l hl2
    rw [show rawLimit (some "-2") = some (-2) from by decide] at hl2
    rw [← Option.some_inj.mp hl2]
    decide
  have h := c10_invalid_pageSize_discards_page
    ([⟨1, "Angel", none, none, none, none⟩] : List Demon) none none (some "3") (some "0")
    hl
  have h2 := c10_invalid_pageSize_discards_page
    ([⟨1, "Angel", none, none, none, none⟩] : List Demon) none none (some "0") (some "-2")
    hl2
  exact ⟨hl, hp, h.1, (h.2 hp).1, (h.2 hp).2, hl2, h2.1⟩

end SMT
